import Mathlib

/-!
Shallow embedding of the dns_fwd DNS rewriting proxy (multi-zone variant,
`handleDNS` and friends), together with proofs about its query-handling
pipeline: zone classification, name rewriting, upstream forwarding and
response reconciliation.

Modelling conventions:
* Go strings are byte sequences; DNS names are ASCII, so a name is a
  `List Nat` of byte values.  `strToLower`, `strHasSuffix`, `strTrimSuffix`
  and `strEqFold` embed `strings.ToLower`, `strings.HasSuffix`,
  `strings.TrimSuffix` and `strings.EqualFold` restricted to ASCII input.
* `bytes` converts a Lean string literal to its byte sequence, purely for
  readable concrete inputs.
* The Go `zones` field is a `map[string]ZoneConfig` whose iteration order is
  unspecified; it is embedded as a `List ZoneConfig` scanned in order, and
  theorems quantify over the list (hence over every possible iteration
  order), while concrete counterexamples fix one particular order, which is
  one possible execution of the Go code.
* The single synchronous upstream exchange is abstracted by an `Oracle`
  mapping (query name, query type, protocol, upstream address) to an
  optional response message; `none` covers an errored exchange.
* `Msg` keeps the fields the handler reads or writes: response code,
  question section and the three record sections.  Transport-level fields
  (Id, flags, EDNS0 OPT handling) do not influence any modelled result.
* `Msg.setReply` and `Msg.setRcode` embed the miekg/dns library methods
  `(*Msg).SetReply` and `(*Msg).SetRcode` that the handler calls:
  `SetReply(request)` sets `Rcode` to `RcodeSuccess` and installs the
  request's first question (when present); `SetRcode` is `SetReply`
  followed by overwriting `Rcode`.
-/

/-- A DNS name (or other Go string holding ASCII data), as its byte values. -/
abbrev DName : Type := List Nat

/-- Byte values of a Lean string literal (ASCII), for concrete inputs. -/
def bytes (s : String) : DName := s.data.map Char.toNat

/-- ASCII lower-casing of one byte, as done by `strings.ToLower` on ASCII. -/
def lowerByte (b : Nat) : Nat := if 65 ≤ b ∧ b ≤ 90 then b + 32 else b

/-- Embeds `strings.ToLower` on ASCII byte strings. -/
def strToLower (s : DName) : DName := s.map lowerByte

/-- Embeds `strings.HasSuffix`. -/
def strHasSuffix (s suf : DName) : Bool :=
  s.drop (s.length - suf.length) == suf

/-- Embeds `strings.TrimSuffix`: drop `suf` from the end of `s` when present. -/
def strTrimSuffix (s suf : DName) : DName :=
  if strHasSuffix s suf then s.take (s.length - suf.length) else s

/-- Embeds `strings.EqualFold` restricted to ASCII. -/
def strEqFold (a b : DName) : Bool := strToLower a == strToLower b

/-! DNS wire constants used by the handler (values from the miekg/dns
package). -/

def TypeA : Nat := 1
def TypeSOA : Nat := 6
def TypeTXT : Nat := 16
def TypeAAAA : Nat := 28
def ClassINET : Nat := 1
def RcodeSuccess : Nat := 0
def RcodeServerFailure : Nat := 2
def RcodeNameError : Nat := 3

/-- Embeds `dns.RR_Header`: the fields the handler reads or writes. -/
structure RR_Header where
  name : DName
  rrtype : Nat
  rclass : Nat
  ttl : Nat
deriving Repr, DecidableEq

/-- Embeds `dns.RR`.  `soa` carries the fields of `dns.SOA`; every other
concrete record kind is `generic` with an opaque rdata payload, since the
handler only ever touches records through their header. -/
inductive RR where
  | soa (hdr : RR_Header) (ns mbox : DName)
        (serial refresh retry expire minttl : Nat)
  | generic (hdr : RR_Header) (rdata : DName)
deriving Repr, DecidableEq

/-- Projection corresponding to the Go `Header()` accessor. -/
def RR.hdr : RR → RR_Header
  | .soa h _ _ _ _ _ _ _ => h
  | .generic h _ => h

/-- Mutation through `Header()`: set the owner name and TTL, keep the rest. -/
def RR.setNameTTL (r : RR) (name : DName) (ttl : Nat) : RR :=
  match r with
  | .soa h ns mbox serial refresh retry expire minttl =>
      .soa { h with name := name, ttl := ttl } ns mbox serial refresh retry expire minttl
  | .generic h rdata => .generic { h with name := name, ttl := ttl } rdata

/-- Embeds `dns.Question`. -/
structure Question where
  name : DName
  qtype : Nat
deriving Repr, DecidableEq

/-- Embeds `dns.Msg`, restricted to the fields the handler depends on. -/
structure Msg where
  rcode : Nat
  question : List Question
  answer : List RR
  ns : List RR
  extra : List RR
deriving Repr, DecidableEq

/-- A fresh `new(dns.Msg)`. -/
def emptyMsg : Msg := { rcode := 0, question := [], answer := [], ns := [], extra := [] }

/-- Embeds miekg/dns `(*Msg).SetReply`: resets the response code to
`RcodeSuccess` and installs the request's first question when the request
has one.  (It also copies Id/flags, which are not modelled.) -/
def Msg.setReply (m req : Msg) : Msg :=
  { m with
    rcode := RcodeSuccess,
    question := match req.question with
                | [] => m.question
                | q :: _ => [q] }

/-- Embeds miekg/dns `(*Msg).SetRcode`: `SetReply` then overwrite `Rcode`. -/
def Msg.setRcode (m req : Msg) (rc : Nat) : Msg :=
  { m.setReply req with rcode := rc }

/-- Embeds `ZoneConfig` (the `Prefix` field is called `pfx` here). -/
structure ZoneConfig where
  zone : DName
  pfx : DName
  protocol : String
  upstream : String
deriving Repr, DecidableEq

/-- Embeds `DNSHandler` (the fields the query pipeline reads; `listenAddr`
only feeds the listener). The Go `zones` map is a list, see the header. -/
structure DNSHandler where
  zones : List ZoneConfig
  defaultPfx : DName
  negativeTTL : Nat
  answerTTL : Nat
deriving Repr

/-- Abstraction of the single synchronous upstream exchange performed by
`forwardQuery`: (rewritten name, query type, protocol, upstream address) to
an optional response; `none` is an errored or empty exchange. -/
abbrev Oracle : Type := DName → Nat → String → String → Option Msg

/-- Embeds `(*DNSHandler).createLocalSOA`. -/
def createLocalSOA (zone : DName) (negativeTTL : Nat) : RR :=
  .soa { name := zone, rrtype := TypeSOA, rclass := ClassINET, ttl := negativeTTL }
       (bytes "dns-pod.hetmer.net.") (bytes "pod.hetmer.net.")
       1 3600 600 86400 negativeTTL

/-- Loop body of `selectZoneForName`: scan the zones in iteration order.
The argument `name` has already been lower-cased by the wrapper. -/
def selectZoneAux (name : DName) : List ZoneConfig → Option (ZoneConfig × Bool)
  | [] => none
  | cfg :: rest =>
    let zone := strToLower cfg.zone
    if name == zone then some (cfg, true)
    else if strHasSuffix name (bytes "." ++ zone) then some (cfg, false)
    else selectZoneAux name rest

/-- Embeds `(*DNSHandler).selectZoneForName`: returns the matched zone and
whether the match is the apex (`some (cfg, true)`), a proper subdomain
(`some (cfg, false)`) or no match (`none`, the Go `ok = false`). -/
def selectZoneForName (zones : List ZoneConfig) (name : DName) : Option (ZoneConfig × Bool) :=
  selectZoneAux (strToLower name) zones

/-- Embeds `(*DNSHandler).rewriteQuery`; `none` is the
"empty subdomain after trimming zone" error. -/
def rewriteQuery (h : DNSHandler) (name : DName) (cfg : ZoneConfig) : Option DName :=
  let name := strToLower name
  let zone := strToLower cfg.zone
  let subdomain := strTrimSuffix name (bytes "." ++ zone)
  if subdomain = [] then none
  else some ((if cfg.pfx = [] then h.defaultPfx else cfg.pfx) ++ subdomain ++ bytes ".")

/-- Embeds `forwardQuery`.  The Go code reads `originalReq.Question[0]`
(an out-of-bounds access when the question list is empty, modelled by the
`[]` branch) and performs one exchange, abstracted by the oracle. -/
def forwardQuery (oracle : Oracle) (originalReq : Msg) (name : DName)
    (proto upstream : String) : Option Msg :=
  match originalReq.question with
  | [] => none
  | q :: _ => oracle name q.qtype proto upstream

/-- One step of the reconciliation loops in `handleDNS`: a record whose
owner name case-folds to the rewritten name gets the original query name
and the configured answer TTL; any other record is untouched. -/
def fixRR (newName origName : DName) (ttl : Nat) (r : RR) : RR :=
  if strEqFold r.hdr.name newName then r.setNameTTL origName ttl else r

/-- A whole reconciliation loop over one record section. -/
def reconcileSection (newName origName : DName) (ttl : Nat) (rs : List RR) : List RR :=
  rs.map (fixRR newName origName ttl)

/-- The NXDOMAIN authority replacement in `handleDNS`: on an upstream
`RcodeNameError`, the authority section becomes exactly the local SOA. -/
def nxReplace (zone : DName) (negTTL : Nat) (resp : Msg) : Msg :=
  if resp.rcode = RcodeNameError
  then { resp with ns := [createLocalSOA zone negTTL] }
  else resp

/-- The terminal dispositions of the early part of `handleDNS`, in source
order.  `forward` carries the first question, the matched zone and the
rewritten name. -/
inductive Disposition where
  | noQuestion
  | noZone (q : Question)
  | apex (q : Question) (cfg : ZoneConfig)
  | badType (q : Question) (cfg : ZoneConfig)
  | rewriteFailed (q : Question)
  | forward (q : Question) (cfg : ZoneConfig) (newName : DName)
deriving Repr, DecidableEq

/-- The decision sequence at the top of `handleDNS`, in the order the Go
code evaluates it: empty question check, zone match, apex check, query-type
check, rewrite. -/
def classify (h : DNSHandler) (req : Msg) : Disposition :=
  match req.question with
  | [] => .noQuestion
  | q :: _ =>
    let normalizedName := strToLower q.name
    match selectZoneForName h.zones normalizedName with
    | none => .noZone q
    | some (cfg, true) => .apex q cfg
    | some (cfg, false) =>
      if q.qtype ≠ TypeA ∧ q.qtype ≠ TypeAAAA then .badType q cfg
      else match rewriteQuery h normalizedName cfg with
           | none => .rewriteFailed q
           | some newName => .forward q cfg newName

/-- Embeds `(*DNSHandler).handleDNS`: the message written back to the
client (the handler always writes exactly one message). -/
def handleDNS (h : DNSHandler) (oracle : Oracle) (req : Msg) : Msg :=
  match classify h req with
  | .noQuestion => Msg.setRcode emptyMsg req RcodeServerFailure
  | .noZone _ =>
    let m := Msg.setRcode emptyMsg req RcodeNameError
    { m with ns := m.ns ++ [createLocalSOA (bytes "invalid.") h.negativeTTL] }
  | .apex q cfg =>
    let m := Msg.setRcode emptyMsg req RcodeSuccess
    if q.qtype = TypeSOA then
      { m with answer := m.answer ++ [createLocalSOA cfg.zone h.negativeTTL] }
    else
      { m with ns := m.ns ++ [createLocalSOA cfg.zone h.negativeTTL] }
  | .badType _ cfg =>
    let m := Msg.setRcode emptyMsg req RcodeNameError
    { m with ns := m.ns ++ [createLocalSOA cfg.zone h.negativeTTL] }
  | .rewriteFailed _ => Msg.setRcode emptyMsg req RcodeServerFailure
  | .forward q cfg newName =>
    match forwardQuery oracle req newName cfg.protocol cfg.upstream with
    | none => Msg.setRcode emptyMsg req RcodeServerFailure
    | some resp =>
      let resp1 := nxReplace cfg.zone h.negativeTTL resp
      let resp2 := resp1.setReply req
      { resp2 with
        answer := reconcileSection newName q.name h.answerTTL resp2.answer,
        ns := reconcileSection newName q.name h.answerTTL resp2.ns,
        extra := reconcileSection newName q.name h.answerTTL resp2.extra }

/-! Concrete fixtures for witnesses and counterexamples. -/

/-- Single-zone handler: zone `pod.example.`, no override, defaults. -/
def hPod : DNSHandler :=
  { zones := [⟨bytes "pod.example.", [], "udp", "203.0.113.1:53"⟩],
    defaultPfx := bytes "systemd-", negativeTTL := 60, answerTTL := 300 }

def cfgPod : ZoneConfig := ⟨bytes "pod.example.", [], "udp", "203.0.113.1:53"⟩

def qFooA : Question := ⟨bytes "foo.pod.example.", TypeA⟩

def reqFooA : Msg := { rcode := 0, question := [qFooA], answer := [], ns := [], extra := [] }

/-- An upstream NXDOMAIN response carrying the upstream's own SOA. -/
def upNxResp : Msg :=
  { rcode := RcodeNameError,
    question := [⟨bytes "systemd-foo.", TypeA⟩],
    answer := [],
    ns := [RR.soa ⟨bytes ".", TypeSOA, ClassINET, 86400⟩
             (bytes "a.root-servers.net.") (bytes "nstld.verisign-grs.com.")
             1 1800 900 604800 86400],
    extra := [] }

/-- Oracle that always answers with the upstream NXDOMAIN response. -/
def oracleNx : Oracle := fun _ _ _ _ => some upNxResp

/-- Two-zone handler whose first-scanned zone is a proper suffix of the
second: one possible iteration order of the Go zones map. -/
def hShadow : DNSHandler :=
  { zones := [⟨bytes "example.", [], "udp", "u1"⟩, ⟨bytes "a.example.", [], "udp", "u2"⟩],
    defaultPfx := bytes "systemd-", negativeTTL := 60, answerTTL := 300 }

def reqApexSOA : Msg :=
  { rcode := 0, question := [⟨bytes "a.example.", TypeSOA⟩], answer := [], ns := [], extra := [] }

/-- Oracle for runs that must not depend on the upstream. -/
def oracleNone : Oracle := fun _ _ _ _ => none

/-- Handler whose zone name equals its own rewritten subdomain names. -/
def hSelf : DNSHandler :=
  { zones := [⟨bytes "systemd-foo.", [], "udp", "u"⟩],
    defaultPfx := bytes "systemd-", negativeTTL := 60, answerTTL := 300 }

def reqSelf : Msg :=
  { rcode := 0, question := [⟨bytes "foo.systemd-foo.", TypeA⟩], answer := [], ns := [], extra := [] }

/-! Elementary lemmas about the byte-string primitives. -/

lemma lowerByte_idem (b : Nat) : lowerByte (lowerByte b) = lowerByte b := by
  unfold lowerByte
  split_ifs <;> omega

lemma strToLower_idem (s : DName) : strToLower (strToLower s) = strToLower s := by
  induction s with
  | nil => rfl
  | cons b t ih =>
    simp only [strToLower, List.map_cons, List.map_map] at ih ⊢
    exact List.cons_eq_cons.mpr ⟨lowerByte_idem b, ih⟩

lemma strToLower_append (a b : DName) :
    strToLower (a ++ b) = strToLower a ++ strToLower b := by
  simp [strToLower]

lemma strToLower_length (s : DName) : (strToLower s).length = s.length := by
  simp [strToLower]

lemma strToLower_eq_nil_iff (s : DName) : strToLower s = [] ↔ s = [] := by
  simp [strToLower]

lemma strTrimSuffix_append (a s : DName) : strTrimSuffix (a ++ s) s = a := by
  have hlen : (a ++ s).length - s.length = a.length := by
    simp [List.length_append]
  unfold strTrimSuffix strHasSuffix
  rw [hlen, List.drop_left, List.take_left]
  simp

/-! Lemmas about single-record reconciliation. -/

lemma RR_setNameTTL_hdr (r : RR) (n : DName) (t : Nat) :
    (r.setNameTTL n t).hdr.name = n ∧ (r.setNameTTL n t).hdr.ttl = t := by
  cases r <;> simp [RR.setNameTTL, RR.hdr]

lemma fixRR_matched (nn origN : DName) (t : Nat) (r : RR)
    (hm : strEqFold r.hdr.name nn = true) :
    fixRR nn origN t r = r.setNameTTL origN t := by
  simp [fixRR, hm]

lemma fixRR_unmatched (nn origN : DName) (t : Nat) (r : RR)
    (hm : strEqFold r.hdr.name nn = false) :
    fixRR nn origN t r = r := by
  simp [fixRR, hm]

lemma reconcileSection_get? (nn origN : DName) (t : Nat) (rs : List RR) (i : Nat) :
    (reconcileSection nn origN t rs).get? i = (rs.get? i).map (fixRR nn origN t) := by
  simp [reconcileSection]

lemma reconcileSection_length (nn origN : DName) (t : Nat) (rs : List RR) :
    (reconcileSection nn origN t rs).length = rs.length := by
  simp [reconcileSection]

/-! Lemmas about classification and the forwarding branch. -/

lemma classify_forward_question {h : DNSHandler} {req : Msg} {q : Question}
    {cfg : ZoneConfig} {nn : DName}
    (hc : classify h req = Disposition.forward q cfg nn) :
    ∃ rest, req.question = q :: rest := by
  unfold classify at hc
  split at hc
  · simp at hc
  · rename_i q0 rest hq
    refine ⟨rest, hq.trans ?_⟩
    split at hc
    · simp only [] at hc
      split at hc <;> simp at hc
    · simp only [] at hc
      split at hc
      · simp at hc
      · simp at hc
      · split at hc
        · simp at hc
        · rw [Disposition.forward.injEq] at hc
          rw [hc.1]

lemma handleDNS_forward_eq (h : DNSHandler) (oracle : Oracle) (req : Msg)
    (q : Question) (cfg : ZoneConfig) (nn : DName) (resp : Msg)
    (hc : classify h req = Disposition.forward q cfg nn)
    (ho : oracle nn q.qtype cfg.protocol cfg.upstream = some resp) :
    handleDNS h oracle req =
      { rcode := RcodeSuccess,
        question := [q],
        answer := reconcileSection nn q.name h.answerTTL
                    (nxReplace cfg.zone h.negativeTTL resp).answer,
        ns := reconcileSection nn q.name h.answerTTL
                    (nxReplace cfg.zone h.negativeTTL resp).ns,
        extra := reconcileSection nn q.name h.answerTTL
                    (nxReplace cfg.zone h.negativeTTL resp).extra } := by
  obtain ⟨rest, hq⟩ := classify_forward_question hc
  simp only [handleDNS, hc, forwardQuery, hq, ho, Msg.setReply]

/-! Lemmas about the zone scan. -/

lemma selectZoneAux_none_of (m : DName) (zs : List ZoneConfig)
    (hm : ∀ cfg ∈ zs, (m == strToLower cfg.zone) = false ∧
            strHasSuffix m (bytes "." ++ strToLower cfg.zone) = false) :
    selectZoneAux m zs = none := by
  induction zs with
  | nil => rfl
  | cons cfg rest ih =>
    obtain ⟨h1, h2⟩ := hm cfg (by simp)
    simp only [selectZoneAux, h1, h2]
    simp only [Bool.false_eq_true, if_false]
    exact ih (fun c hcm => hm c (by simp [hcm]))

lemma selectZoneAux_apex_of (m : DName) (zs : List ZoneConfig)
    (hex : ∃ cfg ∈ zs, (m == strToLower cfg.zone) = true)
    (hns : ∀ cfg ∈ zs, strHasSuffix m (bytes "." ++ strToLower cfg.zone) = false) :
    ∃ cfg, selectZoneAux m zs = some (cfg, true) ∧
      (m == strToLower cfg.zone) = true := by
  induction zs with
  | nil => simp at hex
  | cons cfg rest ih =>
    by_cases h1 : (m == strToLower cfg.zone) = true
    · exact ⟨cfg, by simp [selectZoneAux, h1], h1⟩
    · have h1f : (m == strToLower cfg.zone) = false := by
        cases hb : (m == strToLower cfg.zone)
        · rfl
        · exact absurd hb h1
      have h2 := hns cfg (by simp)
      have hex2 : ∃ c ∈ rest, (m == strToLower c.zone) = true := by
        obtain ⟨c0, hc0m, hc0⟩ := hex
        rcases List.mem_cons.mp hc0m with hhead | htail
        · exact absurd (hhead ▸ hc0) h1
        · exact ⟨c0, htail, hc0⟩
      have hns2 : ∀ c ∈ rest, strHasSuffix m (bytes "." ++ strToLower c.zone) = false :=
        fun c hcm => hns c (by simp [hcm])
      obtain ⟨c, hc1, hc2⟩ := ih hex2 hns2
      refine ⟨c, ?_, hc2⟩
      simp only [selectZoneAux, h1f, h2]
      simp only [Bool.false_eq_true, if_false]
      exact hc1

/-! More concrete fixtures. -/

/-- Query for a name outside every configured zone. -/
def reqUnknown : Msg :=
  { rcode := 0, question := [⟨bytes "bar.unknown.example.", TypeA⟩],
    answer := [], ns := [], extra := [] }

/-- TXT query for a proper subdomain of the configured zone. -/
def reqFooTXT : Msg :=
  { rcode := 0, question := [⟨bytes "foo.pod.example.", TypeTXT⟩],
    answer := [], ns := [], extra := [] }

/-- A successful upstream answer whose answer record matches the rewritten
name up to ASCII case, plus an unrelated additional record. -/
def upAnsResp : Msg :=
  { rcode := 0,
    question := [⟨bytes "systemd-foo.", TypeA⟩],
    answer := [RR.generic ⟨bytes "SYSTEMD-FOO.", TypeA, ClassINET, 1234⟩ (bytes "192.0.2.7")],
    ns := [],
    extra := [RR.generic ⟨bytes "other.example.", TypeA, ClassINET, 77⟩ (bytes "192.0.2.9")] }

/-- Oracle that always answers with the successful upstream response. -/
def oracleAns : Oracle := fun _ _ _ _ => some upAnsResp

/-! The claims. -/

/-- C9: authority-record synthesis is pure and deterministic: two calls of
`createLocalSOA` with identical zone and negative-TTL arguments yield the
same record, and every field (owner name, type, class, TTL, primary
nameserver, mailbox, serial, refresh, retry, expire, minimum TTL) is a
constant or a function of the two arguments only. -/
theorem createLocalSOA_deterministic (zone : DName) (negTTL : Nat) :
    createLocalSOA zone negTTL = createLocalSOA zone negTTL ∧
    createLocalSOA zone negTTL =
      RR.soa { name := zone, rrtype := TypeSOA, rclass := ClassINET, ttl := negTTL }
        (bytes "dns-pod.hetmer.net.") (bytes "pod.hetmer.net.")
        1 3600 600 86400 negTTL :=
  ⟨rfl, rfl⟩

/-- C4: for every zone and every non-empty remainder `L`, rewriting
`L ++ "." ++ zone` yields `effectivePfx ++ lower(L) ++ "."` where the
effective prefix is the zone's override when non-empty, else the default;
and rewriting fails exactly when the remainder after stripping
`"." ++ zone` from the lower-cased name is empty. -/
theorem rewriteQuery_spec (h : DNSHandler) (cfg : ZoneConfig) (L : DName)
    (hL : L ≠ []) :
    rewriteQuery h (L ++ bytes "." ++ cfg.zone) cfg
      = some ((if cfg.pfx = [] then h.defaultPfx else cfg.pfx)
                ++ strToLower L ++ bytes ".") ∧
    ∀ name, (rewriteQuery h name cfg = none ↔
      strTrimSuffix (strToLower name) (bytes "." ++ strToLower cfg.zone) = []) := by
  constructor
  · have hsplit : strToLower (L ++ bytes "." ++ cfg.zone)
        = strToLower L ++ (bytes "." ++ strToLower cfg.zone) := by
      rw [strToLower_append, strToLower_append, List.append_assoc]
      have hdot : strToLower (bytes ".") = bytes "." := by decide
      rw [hdot]
    have hnn : strToLower L ≠ [] := by
      intro hnil
      exact hL ((strToLower_eq_nil_iff L).mp hnil)
    unfold rewriteQuery
    simp only [hsplit, strTrimSuffix_append]
    rw [if_neg hnn]
  · intro name
    unfold rewriteQuery
    simp only []
    split
    · rename_i hsub
      simp [hsub]
    · rename_i hsub
      simp [hsub]

/-- Witness for C4 at `L = "foo"`, zone `pod.example.` with no override. -/
theorem rewriteQuery_spec_witness :
    bytes "foo" ≠ [] ∧
    rewriteQuery hPod (bytes "foo" ++ bytes "." ++ cfgPod.zone) cfgPod
      = some ((if cfgPod.pfx = [] then hPod.defaultPfx else cfgPod.pfx)
                ++ strToLower (bytes "foo") ++ bytes ".") :=
  ⟨by decide, (rewriteQuery_spec hPod cfgPod (bytes "foo") (by decide)).1⟩

/-- C10: whenever the handler's decision sequence reaches the forwarding
step, the request's question list is non-empty, its first element is the
question the handler works with, and `forwardQuery`'s access to the first
question succeeds (it never takes the out-of-bounds branch). -/
theorem forward_disposition_question_nonempty (h : DNSHandler) (req : Msg)
    (q : Question) (cfg : ZoneConfig) (nn : DName)
    (hc : classify h req = Disposition.forward q cfg nn) :
    req.question ≠ [] ∧ req.question.get? 0 = some q ∧
    ∀ oracle : Oracle, forwardQuery oracle req nn cfg.protocol cfg.upstream
        = oracle nn q.qtype cfg.protocol cfg.upstream := by
  obtain ⟨rest, hq⟩ := classify_forward_question hc
  refine ⟨by simp [hq], by simp [hq], fun oracle => ?_⟩
  simp [forwardQuery, hq]

/-- Witness for C10 at the concrete forwarded query `foo.pod.example.`. -/
theorem forward_disposition_question_nonempty_witness :
    classify hPod reqFooA = Disposition.forward qFooA cfgPod (bytes "systemd-foo.") ∧
    reqFooA.question ≠ [] :=
  ⟨by decide,
   (forward_disposition_question_nonempty hPod reqFooA qFooA cfgPod
      (bytes "systemd-foo.") (by decide)).1⟩

/-- C6: a query whose name neither case-folds to any configured zone nor
case-insensitively ends with `"." ++ zone` for any configured zone gets
status NameError, an empty answer section and a synthesized authority
record; the result does not depend on the upstream oracle (no exchange). -/
theorem unmatched_zone_nxdomain (h : DNSHandler) (oracle : Oracle) (req : Msg)
    (q : Question) (rest : List Question)
    (hq : req.question = q :: rest)
    (hm : ∀ cfg ∈ h.zones, strEqFold q.name cfg.zone = false ∧
            strHasSuffix (strToLower q.name) (bytes "." ++ strToLower cfg.zone) = false) :
    (handleDNS h oracle req).rcode = RcodeNameError ∧
    (handleDNS h oracle req).answer = [] ∧
    (handleDNS h oracle req).ns = [createLocalSOA (bytes "invalid.") h.negativeTTL] ∧
    ∀ oracle2 : Oracle, handleDNS h oracle2 req = handleDNS h oracle req := by
  have hsel : selectZoneForName h.zones (strToLower q.name) = none := by
    unfold selectZoneForName
    rw [strToLower_idem]
    apply selectZoneAux_none_of
    intro cfg hcfg
    obtain ⟨h1, h2⟩ := hm cfg hcfg
    exact ⟨by simpa [strEqFold] using h1, h2⟩
  have hcl : classify h req = Disposition.noZone q := by
    unfold classify
    rw [hq]
    simp only [hsel]
  have hout : ∀ o : Oracle, handleDNS h o req =
      { rcode := RcodeNameError, question := [q], answer := [],
        ns := [createLocalSOA (bytes "invalid.") h.negativeTTL], extra := [] } := by
    intro o
    simp [handleDNS, hcl, Msg.setRcode, Msg.setReply, emptyMsg, hq]
  refine ⟨?_, ?_, ?_, fun o2 => (hout o2).trans (hout oracle).symm⟩ <;> rw [hout oracle]

/-- Witness for C6 at the concrete query `bar.unknown.example.` type A. -/
theorem unmatched_zone_nxdomain_witness :
    (handleDNS hPod oracleNone reqUnknown).rcode = RcodeNameError ∧
    (handleDNS hPod oracleNone reqUnknown).answer = [] :=
  ⟨(unmatched_zone_nxdomain hPod oracleNone reqUnknown
      ⟨bytes "bar.unknown.example.", TypeA⟩ [] (by decide) (by decide)).1,
   (unmatched_zone_nxdomain hPod oracleNone reqUnknown
      ⟨bytes "bar.unknown.example.", TypeA⟩ [] (by decide) (by decide)).2.1⟩

/-- C7: a query classified as a proper subdomain of a configured zone whose
type is neither A nor AAAA gets status NameError with the matched zone's
synthesized authority record in the authority section, an empty answer
section, and no dependence on the upstream oracle (no exchange). -/
theorem subdomain_disallowed_qtype_nxdomain (h : DNSHandler) (oracle : Oracle)
    (req : Msg) (q : Question) (rest : List Question) (cfg : ZoneConfig)
    (hq : req.question = q :: rest)
    (hz : selectZoneForName h.zones (strToLower q.name) = some (cfg, false))
    (hA : q.qtype ≠ TypeA) (hAAAA : q.qtype ≠ TypeAAAA) :
    (handleDNS h oracle req).rcode = RcodeNameError ∧
    (handleDNS h oracle req).ns = [createLocalSOA cfg.zone h.negativeTTL] ∧
    (handleDNS h oracle req).answer = [] ∧
    ∀ oracle2 : Oracle, handleDNS h oracle2 req = handleDNS h oracle req := by
  have hcl : classify h req = Disposition.badType q cfg := by
    unfold classify
    rw [hq]
    simp only [hz]
    simp [hA, hAAAA]
  have hout : ∀ o : Oracle, handleDNS h o req =
      { rcode := RcodeNameError, question := [q], answer := [],
        ns := [createLocalSOA cfg.zone h.negativeTTL], extra := [] } := by
    intro o
    simp [handleDNS, hcl, Msg.setRcode, Msg.setReply, emptyMsg, hq]
  refine ⟨?_, ?_, ?_, fun o2 => (hout o2).trans (hout oracle).symm⟩ <;> rw [hout oracle]

/-- Witness for C7 at the concrete query `foo.pod.example.` type TXT. -/
theorem subdomain_disallowed_qtype_nxdomain_witness :
    (handleDNS hPod oracleNone reqFooTXT).rcode = RcodeNameError ∧
    (handleDNS hPod oracleNone reqFooTXT).ns
      = [createLocalSOA cfgPod.zone hPod.negativeTTL] :=
  ⟨(subdomain_disallowed_qtype_nxdomain hPod oracleNone reqFooTXT
      ⟨bytes "foo.pod.example.", TypeTXT⟩ [] cfgPod (by decide) (by decide)
      (by decide) (by decide)).1,
   (subdomain_disallowed_qtype_nxdomain hPod oracleNone reqFooTXT
      ⟨bytes "foo.pod.example.", TypeTXT⟩ [] cfgPod (by decide) (by decide)
      (by decide) (by decide)).2.1⟩

/-- C5 counterexample: with zones `example.` and `a.example.` both
configured and scanned in that order (one possible map iteration order of
the Go code), the apex name `a.example.` of a configured zone is classified
as a subdomain of `example.`, and an SOA query for it is answered with
NameError instead of the claimed Success. -/
theorem apex_shadowed_by_suffix_zone_cex :
    (⟨bytes "a.example.", [], "udp", "u2"⟩ : ZoneConfig) ∈ hShadow.zones ∧
    strEqFold (bytes "a.example.")
      (⟨bytes "a.example.", ([] : DName), "udp", "u2"⟩ : ZoneConfig).zone = true ∧
    selectZoneForName hShadow.zones (strToLower (bytes "a.example."))
      = some (⟨bytes "example.", [], "udp", "u1"⟩, false) ∧
    (handleDNS hShadow oracleNone reqApexSOA).rcode = RcodeNameError ∧
    RcodeNameError ≠ RcodeSuccess := by
  refine ⟨by decide, by decide, by decide, by decide, by decide⟩

/-- C5 (amended): for every configured zone `Z` and query name equal to
`Z.zone` case-insensitively, provided the name does not case-insensitively
end with `"." ++ zone` for any configured zone, classification yields Apex
for some configured zone the name case-folds to, the response status is
Success, an SOA-type query gets the synthesized SOA in the answer section,
and any other query type gets an empty answer section with the synthesized
SOA in the authority section. -/
theorem apex_classification_and_response (h : DNSHandler) (oracle : Oracle)
    (req : Msg) (q : Question) (rest : List Question) (Z : ZoneConfig)
    (hq : req.question = q :: rest)
    (hZ : Z ∈ h.zones) (heq : strEqFold q.name Z.zone = true)
    (hns : ∀ cfg ∈ h.zones,
      strHasSuffix (strToLower q.name) (bytes "." ++ strToLower cfg.zone) = false) :
    ∃ cfg, selectZoneForName h.zones (strToLower q.name) = some (cfg, true) ∧
      strEqFold q.name cfg.zone = true ∧
      (handleDNS h oracle req).rcode = RcodeSuccess ∧
      (if q.qtype = TypeSOA
       then (handleDNS h oracle req).answer = [createLocalSOA cfg.zone h.negativeTTL] ∧
            (handleDNS h oracle req).ns = []
       else (handleDNS h oracle req).answer = [] ∧
            (handleDNS h oracle req).ns = [createLocalSOA cfg.zone h.negativeTTL]) := by
  obtain ⟨cfg, hsel, hm⟩ := selectZoneAux_apex_of (strToLower q.name) h.zones
    ⟨Z, hZ, by simpa [strEqFold] using heq⟩ hns
  have hsel2 : selectZoneForName h.zones (strToLower q.name) = some (cfg, true) := by
    unfold selectZoneForName
    rw [strToLower_idem]
    exact hsel
  have hcl : classify h req = Disposition.apex q cfg := by
    unfold classify
    rw [hq]
    simp only [hsel2]
  by_cases hsoa : q.qtype = TypeSOA
  · have hout : handleDNS h oracle req =
        { rcode := RcodeSuccess, question := [q],
          answer := [createLocalSOA cfg.zone h.negativeTTL], ns := [], extra := [] } := by
      simp [handleDNS, hcl, hsoa, Msg.setRcode, Msg.setReply, emptyMsg, hq]
    refine ⟨cfg, hsel2, by simpa [strEqFold] using hm, by rw [hout], ?_⟩
    rw [if_pos hsoa, hout]
    exact ⟨rfl, rfl⟩
  · have hout : handleDNS h oracle req =
        { rcode := RcodeSuccess, question := [q], answer := [],
          ns := [createLocalSOA cfg.zone h.negativeTTL], extra := [] } := by
      simp [handleDNS, hcl, hsoa, Msg.setRcode, Msg.setReply, emptyMsg, hq]
    refine ⟨cfg, hsel2, by simpa [strEqFold] using hm, by rw [hout], ?_⟩
    rw [if_neg hsoa, hout]
    exact ⟨rfl, rfl⟩

/-- Witness for amended C5: SOA query for `Pod.Example.` (mixed case)
against the single configured zone `pod.example.`. -/
theorem apex_classification_and_response_witness :
    ∃ cfg, selectZoneForName hPod.zones (strToLower (bytes "Pod.Example."))
        = some (cfg, true) ∧
      strEqFold (bytes "Pod.Example.") cfg.zone = true ∧
      (handleDNS hPod oracleNone
        { rcode := 0, question := [⟨bytes "Pod.Example.", TypeSOA⟩],
          answer := [], ns := [], extra := [] }).rcode = RcodeSuccess ∧
      (if (⟨bytes "Pod.Example.", TypeSOA⟩ : Question).qtype = TypeSOA
       then (handleDNS hPod oracleNone
              { rcode := 0, question := [⟨bytes "Pod.Example.", TypeSOA⟩],
                answer := [], ns := [], extra := [] }).answer
              = [createLocalSOA cfg.zone hPod.negativeTTL] ∧
            (handleDNS hPod oracleNone
              { rcode := 0, question := [⟨bytes "Pod.Example.", TypeSOA⟩],
                answer := [], ns := [], extra := [] }).ns = []
       else (handleDNS hPod oracleNone
              { rcode := 0, question := [⟨bytes "Pod.Example.", TypeSOA⟩],
                answer := [], ns := [], extra := [] }).answer = [] ∧
            (handleDNS hPod oracleNone
              { rcode := 0, question := [⟨bytes "Pod.Example.", TypeSOA⟩],
                answer := [], ns := [], extra := [] }).ns
              = [createLocalSOA cfg.zone hPod.negativeTTL]) :=
  apex_classification_and_response hPod oracleNone
    { rcode := 0, question := [⟨bytes "Pod.Example.", TypeSOA⟩],
      answer := [], ns := [], extra := [] }
    ⟨bytes "Pod.Example.", TypeSOA⟩ [] cfgPod rfl (by decide) (by decide) (by decide)

/-- C1 (code bug): the forwarded query `foo.pod.example.` whose upstream
response has status NameError is answered to the client with status
Success, not NameError: `resp.SetReply(req)` runs after the NXDOMAIN check
and resets the response code to `RcodeSuccess`.  The authority-replacement
half of the claim does hold: the authority section is exactly the local
synthesized SOA. -/
theorem upstream_nxdomain_rcode_not_forwarded :
    upNxResp.rcode = RcodeNameError ∧
    (handleDNS hPod oracleNx reqFooA).rcode = RcodeSuccess ∧
    (handleDNS hPod oracleNx reqFooA).rcode ≠ RcodeNameError ∧
    (handleDNS hPod oracleNx reqFooA).ns
      = [createLocalSOA cfgPod.zone hPod.negativeTTL] := by
  refine ⟨by decide, by decide, by decide, by decide⟩

/-- C2 counterexample: zone `systemd-foo.` with default prefix `systemd-`;
the query `foo.systemd-foo.` rewrites to `systemd-foo.`, which case-folds
to the zone name itself, so the reconciliation loop rewrites the freshly
synthesized SOA's owner name to the original query name and its TTL to the
positive-answer TTL — the client-visible authority record is not the
zone's synthesized record as the claim states it. -/
theorem nxdomain_authority_fields_rewritten_cex :
    (handleDNS hSelf oracleNx reqSelf).ns =
      [RR.soa ⟨bytes "foo.systemd-foo.", TypeSOA, ClassINET, 300⟩
         (bytes "dns-pod.hetmer.net.") (bytes "pod.hetmer.net.")
         1 3600 600 86400 60] ∧
    (handleDNS hSelf oracleNx reqSelf).ns
      ≠ [createLocalSOA (bytes "systemd-foo.") 60] := by
  refine ⟨by decide, by decide⟩

/-- C2 (amended): for every upstream response with status NameError, the
client-visible authority section contains exactly one record; and provided
the matched zone's name does not case-fold to the rewritten upstream name,
that record is precisely the zone's synthesized authority record. -/
theorem nxdomain_authority_single_local_soa (h : DNSHandler) (oracle : Oracle)
    (req resp : Msg) (q : Question) (cfg : ZoneConfig) (nn : DName)
    (hc : classify h req = Disposition.forward q cfg nn)
    (ho : oracle nn q.qtype cfg.protocol cfg.upstream = some resp)
    (hr : resp.rcode = RcodeNameError) :
    (handleDNS h oracle req).ns.length = 1 ∧
    (strEqFold cfg.zone nn = false →
      (handleDNS h oracle req).ns = [createLocalSOA cfg.zone h.negativeTTL]) := by
  have hout := handleDNS_forward_eq h oracle req q cfg nn resp hc ho
  have hnx : nxReplace cfg.zone h.negativeTTL resp
      = { resp with ns := [createLocalSOA cfg.zone h.negativeTTL] } := by
    simp [nxReplace, hr]
  rw [hout, hnx]
  constructor
  · simp [reconcileSection]
  · intro hzf
    simp [reconcileSection, fixRR, createLocalSOA, RR.hdr, hzf]

/-- Witness for amended C2: forwarded query `foo.pod.example.` with the
upstream NXDOMAIN response; the client-visible authority section is exactly
the zone's synthesized SOA. -/
theorem nxdomain_authority_single_local_soa_witness :
    (handleDNS hPod oracleNx reqFooA).ns.length = 1 ∧
    (handleDNS hPod oracleNx reqFooA).ns
      = [createLocalSOA cfgPod.zone hPod.negativeTTL] :=
  ⟨(nxdomain_authority_single_local_soa hPod oracleNx reqFooA upNxResp qFooA
      cfgPod (bytes "systemd-foo.") (by decide) rfl (by decide)).1,
   (nxdomain_authority_single_local_soa hPod oracleNx reqFooA upNxResp qFooA
      cfgPod (bytes "systemd-foo.") (by decide) rfl (by decide)).2 (by decide)⟩

/-- C3: for every successfully forwarded query, every record of the
response entering reconciliation (answer, authority and additional
sections, after the NXDOMAIN authority replacement) whose owner name
case-folds to the rewritten upstream name ends up, at the same position of
the client-visible message, with owner name exactly the client's original
query name and TTL exactly the configured positive-answer TTL. -/
theorem reconcile_matching_records_rewritten (h : DNSHandler) (oracle : Oracle)
    (req resp pre : Msg) (q : Question) (cfg : ZoneConfig) (nn : DName)
    (hc : classify h req = Disposition.forward q cfg nn)
    (ho : oracle nn q.qtype cfg.protocol cfg.upstream = some resp)
    (hpre : pre = nxReplace cfg.zone h.negativeTTL resp) :
    (∀ i r, pre.answer.get? i = some r → strEqFold r.hdr.name nn = true →
       ∃ r2, (handleDNS h oracle req).answer.get? i = some r2 ∧
         r2.hdr.name = q.name ∧ r2.hdr.ttl = h.answerTTL) ∧
    (∀ i r, pre.ns.get? i = some r → strEqFold r.hdr.name nn = true →
       ∃ r2, (handleDNS h oracle req).ns.get? i = some r2 ∧
         r2.hdr.name = q.name ∧ r2.hdr.ttl = h.answerTTL) ∧
    (∀ i r, pre.extra.get? i = some r → strEqFold r.hdr.name nn = true →
       ∃ r2, (handleDNS h oracle req).extra.get? i = some r2 ∧
         r2.hdr.name = q.name ∧ r2.hdr.ttl = h.answerTTL) := by
  have hout := handleDNS_forward_eq h oracle req q cfg nn resp hc ho
  subst hpre
  rw [hout]
  refine ⟨?_, ?_, ?_⟩ <;>
  · intro i r hget hm
    refine ⟨r.setNameTTL q.name h.answerTTL, ?_,
      (RR_setNameTTL_hdr r q.name h.answerTTL).1,
      (RR_setNameTTL_hdr r q.name h.answerTTL).2⟩
    simp only [reconcileSection_get?, hget, Option.map_some']
    rw [fixRR_matched _ _ _ _ hm]

/-- Witness for C3: the upstream answer record owned by `SYSTEMD-FOO.`
(matching the rewritten name up to case) is delivered with owner
`foo.pod.example.` and TTL 300. -/
theorem reconcile_matching_records_rewritten_witness :
    ∃ r2, (handleDNS hPod oracleAns reqFooA).answer.get? 0 = some r2 ∧
      r2.hdr.name = bytes "foo.pod.example." ∧ r2.hdr.ttl = 300 :=
  (reconcile_matching_records_rewritten hPod oracleAns reqFooA upAnsResp
      (nxReplace cfgPod.zone hPod.negativeTTL upAnsResp) qFooA cfgPod
      (bytes "systemd-foo.") (by decide) rfl rfl).1 0
    (RR.generic ⟨bytes "SYSTEMD-FOO.", TypeA, ClassINET, 1234⟩ (bytes "192.0.2.7"))
    (by decide) (by decide)

/-- C8: during reconciliation of a forwarded response, every record of the
message entering reconciliation (after the NXDOMAIN authority replacement)
whose owner name does not case-fold to the rewritten upstream name is left
entirely unmodified — same record, same position — in the client-visible
message. -/
theorem reconcile_nonmatching_records_unchanged (h : DNSHandler)
    (oracle : Oracle) (req resp pre : Msg) (q : Question) (cfg : ZoneConfig)
    (nn : DName)
    (hc : classify h req = Disposition.forward q cfg nn)
    (ho : oracle nn q.qtype cfg.protocol cfg.upstream = some resp)
    (hpre : pre = nxReplace cfg.zone h.negativeTTL resp) :
    (∀ i r, pre.answer.get? i = some r → strEqFold r.hdr.name nn = false →
       (handleDNS h oracle req).answer.get? i = some r) ∧
    (∀ i r, pre.ns.get? i = some r → strEqFold r.hdr.name nn = false →
       (handleDNS h oracle req).ns.get? i = some r) ∧
    (∀ i r, pre.extra.get? i = some r → strEqFold r.hdr.name nn = false →
       (handleDNS h oracle req).extra.get? i = some r) := by
  have hout := handleDNS_forward_eq h oracle req q cfg nn resp hc ho
  subst hpre
  rw [hout]
  refine ⟨?_, ?_, ?_⟩ <;>
  · intro i r hget hm
    simp only [reconcileSection_get?, hget, Option.map_some']
    rw [fixRR_unmatched _ _ _ _ hm]

/-- Witness for C8: the unrelated additional record owned by
`other.example.` is delivered unchanged. -/
theorem reconcile_nonmatching_records_unchanged_witness :
    (handleDNS hPod oracleAns reqFooA).extra.get? 0
      = some (RR.generic ⟨bytes "other.example.", TypeA, ClassINET, 77⟩
                (bytes "192.0.2.9")) :=
  (reconcile_nonmatching_records_unchanged hPod oracleAns reqFooA upAnsResp
      (nxReplace cfgPod.zone hPod.negativeTTL upAnsResp) qFooA cfgPod
      (bytes "systemd-foo.") (by decide) rfl rfl).2.2 0
    (RR.generic ⟨bytes "other.example.", TypeA, ClassINET, 77⟩ (bytes "192.0.2.9"))
    (by decide) (by decide)
